import Mathlib

/-!
Shallow embedding of the mutation/observation core of
`src/tools/graph_visualizer.py` (Project Eidolon graph visualizer).

Conventions:
* Python floats are modelled as rationals (`ℚ`); the decay factor `0.98`
  is `98/100`, timestamps are rationals.
* Python ints are `ℤ`.
* Randomness is passed in explicitly: each random decision the code makes
  is a parameter (an index-addressed oracle `Nat → Bool × ℚ`, where the
  `Bool` is the outcome of `random.random() < 0.05` and the `ℚ` is the
  value drawn by `random.uniform(0.1, 0.2)`), so the code's behaviour is a
  deterministic function of the oracle.
* The entity dictionaries are modelled as fully-shaped records: the
  `migrate_entities_to_new_structure` pass and the defensive
  initialize-missing-fields blocks in `background_updater` guarantee all
  fields are present before any update runs, so the record form is
  faithful for every state reachable through this core.
-/

/-- An entity record, after field migration: the nine keys used by the
core (`process_prompt` creates exactly these). -/
structure Entity where
  id : String
  name : String
  entity_type : String
  description : String
  strain_amplitude : ℚ
  node_resistance : ℚ
  musical_frequency : ℤ
  gravitational_mass : ℚ
  access_count : ℤ
  last_accessed : ℚ
deriving DecidableEq, Repr

/-- The agent fields touched by the background updater (the remaining
agent keys are never read or written by the tick loop). -/
structure Agent where
  id : String
  gravitational_mass : ℚ
  access_count : ℤ
  last_accessed : ℚ
deriving DecidableEq, Repr

/-- A relationship record (`from`/`to` are Lean-renamed to
`from_id`/`to_id`; the tick loop never reads or writes these). -/
structure Relationship where
  id : String
  from_id : String
  to_id : String
  rel_type : String
  weight : ℚ
deriving DecidableEq, Repr

/-- The process-wide mutable state: `visualizer.agents`,
`visualizer.entities`, `visualizer.relationships`. -/
structure GraphState where
  agents : List Agent
  entities : List Entity
  relationships : List Relationship
deriving DecidableEq, Repr

/-- One message on `update_queue` / the SSE stream: a tick update batch,
a prompt-response batch, or the heartbeat emitted on queue timeout. -/
inductive Msg where
  | update (timestamp : ℚ) (agents : List Agent) (entities : List Entity)
  | promptResponse (timestamp : ℚ) (prompt : String) (new_entities : List Entity)
  | heartbeat (timestamp : ℚ)
deriving DecidableEq, Repr

/-- `update_queue = queue.Queue()`: one FIFO shared by the publisher and
every stream subscriber. -/
abbrev UpdateQueue := List Msg

/-- `update_queue.put(m)`. -/
def publish (q : UpdateQueue) (m : Msg) : UpdateQueue := q ++ [m]

/-- `update_queue.get(timeout=5)` as performed by one subscriber's
generator loop in `api_stream_updates`: if the queue holds a message the
subscriber takes (and removes) the front one; on timeout (empty queue) it
yields a heartbeat carrying the current time. -/
def receive (now : ℚ) (q : UpdateQueue) : Msg × UpdateQueue :=
  match q with
  | [] => (Msg.heartbeat now, [])
  | m :: rest => (m, rest)

/-- The per-agent body of `background_updater`'s first loop: recompute the
gravitational mass from access count and recency, stamp `last_accessed`.
(`new_mass = 1.0 * access_count * time_factor`.) -/
def updateAgent (now : ℚ) (a : Agent) : Agent :=
  let time_since_access := now - a.last_accessed
  let time_factor := 1 + 1 / max time_since_access 1
  { a with gravitational_mass := 1 * (a.access_count : ℚ) * time_factor
         , last_accessed := now }

/-- The per-entity body of `background_updater`'s second loop, with the
node's random draws supplied as `r` (`r.1` = outcome of
`random.random() < 0.05`, `r.2` = value of `random.uniform(0.1, 0.2)`).
The source performs the assignments in sequence — mass and
`last_accessed` first, then `node_resistance` is assigned the sum of the
single-element list `[entity['strain_amplitude']]` (i.e. the amplitude
before any amplitude update), and only then, and only when the amplitude
is strictly positive, is the amplitude itself rewritten. Each field is
written at most once and every right-hand side reads only pre-update
values, so the sequence is this single simultaneous record update. -/
def updateEntity (now : ℚ) (r : Bool × ℚ) (e : Entity) : Entity :=
  { e with
    gravitational_mass :=
      1 * (e.access_count : ℚ) * (1 + 1 / max (now - e.last_accessed) 1)
  , last_accessed := now
  , node_resistance := e.strain_amplitude
  , strain_amplitude :=
      if 0 < e.strain_amplitude then
        if r.1 then e.strain_amplitude + r.2
        else max 0 (e.strain_amplitude * (98/100))
      else e.strain_amplitude }

/-- Map the entity updater over the list, giving entity number `i` the
oracle entry `rs (i0 + i)`. -/
def tickEntities (now : ℚ) (rs : Nat → Bool × ℚ) : Nat → List Entity → List Entity
  | _, [] => []
  | i, e :: es => updateEntity now (rs i) e :: tickEntities now rs (i + 1) es

/-- One full pass of `background_updater`'s loop body: update every agent
and every entity, then put one update batch on the queue. Relationships
are not touched by the loop body. -/
def background_tick (now : ℚ) (rs : Nat → Bool × ℚ) (s : GraphState) :
    GraphState × Msg :=
  let ags := s.agents.map (updateAgent now)
  let ents := tickEntities now rs 0 s.entities
  ({ s with agents := ags, entities := ents }, Msg.update now ags ents)

/-- The stop-word list skipped by `process_prompt`'s word loop. -/
def stop_words : List String :=
  ["the", "a", "an", "and", "or", "but", "in", "on", "at", "to", "for",
   "of", "with", "by"]

/-- Split a character list into maximal runs of non-whitespace
characters, accumulating the current (reversed) run: the semantics of
Python's argumentless `split`, which never yields empty pieces. -/
def splitWsAux : List Char → List Char → List String
  | [], acc => if acc.isEmpty then [] else [String.mk acc.reverse]
  | c :: cs, acc =>
      if c.isWhitespace then
        if acc.isEmpty then splitWsAux cs []
        else String.mk acc.reverse :: splitWsAux cs []
      else splitWsAux cs (c :: acc)

/-- Python's `str.lower()` on the character list (over the source's data
this coincides with `String.toLower`; spelled out character by character
so that concrete instances evaluate). -/
def pyLower (s : String) : String :=
  String.mk (s.data.map Char.toLower)

/-- `prompt.lower().split()`: lowercase the characters, then split on
whitespace runs. -/
def tokenize (s : String) : List String :=
  splitWsAux (pyLower s).data []

/-- Python's `str.strip()`: drop leading and trailing whitespace. -/
def pyStrip (s : String) : String :=
  String.mk
    (((s.data.dropWhile Char.isWhitespace).reverse.dropWhile
        Char.isWhitespace).reverse)

/-- The fresh word node built by `process_prompt` (id embeds
`int(current_time)`; timestamps here are nonnegative, where truncation
and floor agree). `freq` stands for `random.randint(261, 493)`. -/
def mkWordEntity (word : String) (now : ℚ) (freq : ℤ) : Entity :=
  { id := "word_" ++ word ++ "_" ++ toString ⌊now⌋
  , name := word
  , entity_type := "concept_type"
  , description := "Word: " ++ word
  , strain_amplitude := 0
  , node_resistance := 0
  , musical_frequency := freq
  , gravitational_mass := 1
  , access_count := 1
  , last_accessed := now }

/-- `existing_entity['access_count'] += 1; existing_entity['last_accessed']
= current_time` applied to the first entity whose lowercased name equals
`word` (the `next(...)` match). -/
def bumpFirst (now : ℚ) (word : String) : List Entity → List Entity
  | [] => []
  | e :: rest =>
      if pyLower e.name = word then
        { e with access_count := e.access_count + 1, last_accessed := now } :: rest
      else
        e :: bumpFirst now word rest

/-- One iteration of `process_prompt`'s word loop, threading the entity
list together with the accumulated `response['new_entities']`: skip stop
words; bump the first existing entity with that name; otherwise append a
fresh default-initialized word node (recorded in both lists). -/
def ingestWord (now : ℚ) (freq : ℤ) (acc : List Entity × List Entity)
    (word : String) : List Entity × List Entity :=
  if word ∈ stop_words then acc
  else if (acc.1.find? (fun e => pyLower e.name == word)).isSome then
    (bumpFirst now word acc.1, acc.2)
  else
    (acc.1 ++ [mkWordEntity word now freq], acc.2 ++ [mkWordEntity word now freq])

/-- The word loop over the enumerated token list (`freqs i` is the
`random.randint` draw available to the word at position `i`). -/
def ingest_words (now : ℚ) (freqs : Nat → ℤ) (es : List Entity)
    (ws : List (Nat × String)) : List Entity × List Entity :=
  ws.foldl (fun acc iw => ingestWord now (freqs iw.1) acc iw.2) (es, [])

/-- One iteration of `process_prompt`'s dissonance loop over an entity:
with `r.1` (`random.random() < 0.05`) add the drawn dissonance `r.2`,
otherwise decay the strain toward zero with a floor at 0. Unlike the tick
loop, this version has no positivity guard. -/
def promptStrainStep (r : Bool × ℚ) (e : Entity) : Entity :=
  if r.1 then
    { e with strain_amplitude := e.strain_amplitude + r.2 }
  else
    { e with strain_amplitude := max 0 (e.strain_amplitude * (98/100)) }

/-- `for entity in visualizer.entities[:5]`: apply the dissonance step to
the first `fuel` entities (5 in the source), indexing the oracle from
`i`, and leave the rest of the list untouched. -/
def strainFirst (rs : Nat → Bool × ℚ) : Nat → Nat → List Entity → List Entity
  | _, 0, es => es
  | _, _, [] => []
  | i, fuel + 1, e :: rest => promptStrainStep (rs i) e :: strainFirst rs (i + 1) fuel rest

/-- The response dictionary built by `process_prompt`, restricted to the
keys this core's state semantics depend on (`new_relationships` is built
from coin flips but is never installed into `visualizer.relationships`,
and `strain_changes` is a log of the dissonance loop; neither feeds back
into the state). -/
structure PromptResponse where
  processed_prompt : String
  ai_response : String
  new_entities : List Entity
deriving DecidableEq, Repr

/-- `process_prompt(prompt)`: tokenize, run the word loop (creating or
bumping word nodes), then run the dissonance loop over the first five
entities of the updated list. `freqs` supplies the `randint` draws by
word position, `rs` the dissonance-loop draws by entity position. -/
def process_prompt (s : GraphState) (prompt : String) (now : ℚ)
    (freqs : Nat → ℤ) (rs : Nat → Bool × ℚ) : GraphState × PromptResponse :=
  let (es1, created) := ingest_words now freqs s.entities (tokenize prompt).enum
  let es2 := strainFirst rs 0 5 es1
  ({ s with entities := es2 },
   { processed_prompt := prompt
   , ai_response := "Processing: " ++ prompt
   , new_entities := created })

/-- `GraphVisualizer.get_entities(strain_threshold, entity_type)`. Python
truthiness is modelled exactly: a `None` threshold and a threshold equal
to `0` both skip the amplitude filter (`if strain_threshold:`), and a
`None` or empty category skips the type filter. -/
def get_entities (es : List Entity) (strain_threshold : Option ℚ)
    (entity_type : Option String) : List Entity :=
  let es1 :=
    match strain_threshold with
    | none => es
    | some t => if t = 0 then es else es.filter (fun e => t < e.strain_amplitude)
  match entity_type with
  | none => es1
  | some c => if c = "" then es1 else es1.filter (fun e => e.entity_type == c)

/-- The `/api/entities` endpoint: runs `get_entities` against the current
state and leaves the state as the handler leaves it. -/
def api_entities (s : GraphState) (strain_threshold : Option ℚ)
    (entity_type : Option String) : List Entity × GraphState :=
  (get_entities s.entities strain_threshold entity_type, s)

/-- Outcome field of the `/api/process-prompt` handler: HTTP 200 success
or the HTTP 400 no-prompt error. -/
inductive ApiStatus where
  | ok
  | error
deriving DecidableEq, Repr

/-- The `/api/process-prompt` handler: strip the prompt; if nothing
remains, return the 400 error without touching state or queue; otherwise
run `process_prompt` on the stripped prompt and publish a
prompt-response batch. -/
def api_process_prompt (s : GraphState) (q : UpdateQueue) (raw : String)
    (now : ℚ) (freqs : Nat → ℤ) (rs : Nat → Bool × ℚ) :
    ApiStatus × GraphState × UpdateQueue :=
  let prompt := pyStrip raw
  if prompt = "" then
    (ApiStatus.error, s, q)
  else
    let (s1, resp) := process_prompt s prompt now freqs rs
    (ApiStatus.ok, s1,
     publish q (Msg.promptResponse now resp.processed_prompt resp.new_entities))

/-- One state-mutating operation of the core: an engine tick or an
ingestion call, each carrying its oracle draws. -/
inductive Op where
  | tick (now : ℚ) (rs : Nat → Bool × ℚ)
  | prompt (text : String) (now : ℚ) (freqs : Nat → ℤ) (rs : Nat → Bool × ℚ)

/-- Apply one operation to the state. -/
def applyOp (s : GraphState) : Op → GraphState
  | Op.tick now rs => (background_tick now rs s).1
  | Op.prompt text now freqs rs => (process_prompt s text now freqs rs).1

/-- An oracle is admissible when every `random.uniform(0.1, 0.2)` draw it
reports lies in that interval (only nonnegativity is ever needed). -/
def validOracle (rs : Nat → Bool × ℚ) : Prop :=
  ∀ i, (1/10 : ℚ) ≤ (rs i).2 ∧ (rs i).2 ≤ (2/10 : ℚ)

/-- Admissibility of an operation's random draws. -/
def validOp : Op → Prop
  | Op.tick _ rs => validOracle rs
  | Op.prompt _ _ _ rs => validOracle rs

/-- All entity amplitudes in a state are nonnegative. -/
def allNonneg (s : GraphState) : Prop :=
  ∀ e ∈ s.entities, 0 ≤ e.strain_amplitude

/-! ### Sample records used in concrete statements -/

/-- The node `n0` of the spec's concrete tick scenario: amplitude `0.5`,
`access_count = 3`, last accessed 10 seconds before a tick at time 100. -/
def nodeN0 : Entity :=
  { id := "n0", name := "n0", entity_type := "concept_type", description := "d"
  , strain_amplitude := 1/2, node_resistance := 1/2, musical_frequency := 440
  , gravitational_mass := 1, access_count := 3, last_accessed := 90 }

/-- A node whose strain amplitude is exactly zero. -/
def nodeZero : Entity :=
  { id := "z0", name := "z0", entity_type := "concept_type", description := "d"
  , strain_amplitude := 0, node_resistance := 0, musical_frequency := 440
  , gravitational_mass := 1, access_count := 1, last_accessed := 90 }

/-- The state obtained by ingesting the single word `cat` into an empty
store at time 100, with the dissonance oracle reporting no contradiction. -/
def ingestedCatState : GraphState :=
  (process_prompt ⟨[], [], []⟩ "cat" 100 (fun _ => 300) (fun _ => (false, 0))).1

/-! ### C1 — update delivery -/

/-- C1: the claim — with two active subscribers and one publish, both
subscribers receive that exact batch — is false: the update queue is one
shared FIFO, so after one publish the first `get` consumes the batch and
the second subscriber's `get` times out into a heartbeat. -/
theorem C1_counterexample :
    ¬ ((receive 7 (publish [] (Msg.update 5 [] []))).1 = Msg.update 5 [] [] ∧
       (receive 7 (receive 7 (publish [] (Msg.update 5 [] []))).2).1 =
         Msg.update 5 [] []) := by
  decide

/-- C1 (amended): a published batch is consumed by exactly one
subscriber: after one publish on the empty shared queue, the first
receive returns the batch unmodified and the next receive yields only a
heartbeat. -/
theorem C1_single_consumer (m : Msg) (now1 now2 : ℚ) :
    (receive now1 (publish [] m)).1 = m ∧
    (receive now2 (receive now1 (publish [] m)).2).1 = Msg.heartbeat now2 := by
  simp [publish, receive]

/-! ### C2 — resistance versus amplitude after a tick -/

/-- C2: the claim — after a tick each node's resistance equals the
amplitude as updated by that same tick — is false: at node `n0`
(amplitude `1/2`) a decay tick leaves `node_resistance = 1/2` while the
amplitude becomes `49/100`. -/
theorem C2_counterexample :
    ¬ ((updateEntity 100 (false, 0) nodeN0).node_resistance =
       (updateEntity 100 (false, 0) nodeN0).strain_amplitude) := by
  simp [updateEntity, nodeN0]
  norm_num

/-- C2 (amended): after a tick a node's resistance equals the amplitude
the node had at the start of that tick's per-node update (the
pre-update amplitude), because the source assigns `node_resistance`
before it updates `strain_amplitude`. -/
theorem C2_resistance_eq_pre_amplitude (now : ℚ) (r : Bool × ℚ) (e : Entity) :
    (updateEntity now r e).node_resistance = e.strain_amplitude := rfl

/-! ### C3 — amplitude update formula -/

/-- C3: the claim — the amplitude update applies the
contradiction/decay formula regardless of the node's current amplitude —
is false: at amplitude 0 with the contradiction branch chosen and a
drawn dissonance of `3/20`, the code leaves the amplitude at 0 instead
of raising it to `3/20`. -/
theorem C3_counterexample :
    (updateEntity 100 (true, 3/20) nodeZero).strain_amplitude = 0 ∧
    ¬ ((updateEntity 100 (true, 3/20) nodeZero).strain_amplitude =
       nodeZero.strain_amplitude + 3/20) := by
  constructor
  · simp [updateEntity, nodeZero]
  · simp [updateEntity, nodeZero]
    norm_num

/-- C3 (amended): when the node's current amplitude is strictly
positive, the tick's amplitude update follows the claimed formula: the
contradiction branch adds the drawn dissonance, the decay branch
multiplies by `0.98` with a floor at 0. (At amplitude ≤ 0 the code skips
the update and draws no sample.) -/
theorem C3_amplitude_update (now : ℚ) (contra : Bool) (d : ℚ) (e : Entity)
    (h : 0 < e.strain_amplitude) :
    (updateEntity now (contra, d) e).strain_amplitude =
      if contra then e.strain_amplitude + d
      else max 0 (e.strain_amplitude * (98/100)) := by
  simp only [updateEntity, if_pos h]

/-- Witness for C3 (amended) at node `n0` with the contradiction branch. -/
theorem C3_witness :
    (0 : ℚ) < nodeN0.strain_amplitude ∧
    (updateEntity 100 (true, 3/20) nodeN0).strain_amplitude =
      (if true then nodeN0.strain_amplitude + 3/20
       else max 0 (nodeN0.strain_amplitude * (98/100))) :=
  ⟨by norm_num [nodeN0], C3_amplitude_update 100 true (3/20) nodeN0 (by norm_num [nodeN0])⟩

/-! ### C5 — the concrete tick scenario -/

/-- C5: one engine tick at time `now` on a node with amplitude `0.5`,
`access_count = 3`, and `last_accessed = now - 10`, with the random
source taking the decay branch, yields amplitude `0.49`, gravitational
mass `33/10 = 1*3*(1+1/10)`, and `last_accessed = now` (the resistance
field receives the pre-tick amplitude `0.5`). -/
theorem C5_concrete_tick (now d : ℚ) (i n t ds : String) (res : ℚ) (fr : ℤ) (m : ℚ) :
    updateEntity now (false, d)
        { id := i, name := n, entity_type := t, description := ds
        , strain_amplitude := 1/2, node_resistance := res, musical_frequency := fr
        , gravitational_mass := m, access_count := 3, last_accessed := now - 10 } =
      { id := i, name := n, entity_type := t, description := ds
      , strain_amplitude := 49/100, node_resistance := 1/2, musical_frequency := fr
      , gravitational_mass := 33/10, access_count := 3, last_accessed := now } := by
  simp only [updateEntity, Entity.mk.injEq]
  norm_num

/-! ### C6 — threshold filtering -/

/-- C6: the claim — for every threshold `t`, including `t = 0`, the
filtered read returns exactly the entities with amplitude strictly
greater than `t` — is false at `t = 0`: Python's `if strain_threshold:`
treats `0` as falsy, so the zero-amplitude node is returned even though
its amplitude is not greater than 0. -/
theorem C6_counterexample :
    get_entities [nodeZero] (some 0) none = [nodeZero] ∧
    ¬ (get_entities [nodeZero] (some 0) none =
       [nodeZero].filter (fun e => decide ((0:ℚ) < e.strain_amplitude))) := by
  decide

/-- C6 (amended): for a supplied threshold `t ≠ 0` the read returns
exactly the entities with amplitude strictly greater than `t`; for
`t = 0` the amplitude filter is skipped (falsy threshold) and every
entity is returned. -/
theorem C6_threshold_filter (es : List Entity) (t : ℚ) :
    get_entities es (some t) none =
      (if t = 0 then es
       else es.filter (fun e => decide (t < e.strain_amplitude))) := by
  simp [get_entities]

/-! ### C9 — ticks leave relationships untouched -/

/-- C9: one full pass of the background updater rewrites agents and
entities but leaves the relationship collection identical. -/
theorem C9_tick_preserves_relationships (now : ℚ) (rs : Nat → Bool × ℚ)
    (s : GraphState) :
    ((background_tick now rs s).1).relationships = s.relationships := rfl

/-! ### C10 — empty ingestion input -/

/-- C10: when the stripped prompt is empty (empty or whitespace-only
input), the `/api/process-prompt` handler returns the error status and
leaves both the graph state and the update queue unchanged. -/
theorem C10_empty_prompt_rejected (s : GraphState) (q : UpdateQueue)
    (raw : String) (now : ℚ) (freqs : Nat → ℤ) (rs : Nat → Bool × ℚ)
    (h : pyStrip raw = "") :
    api_process_prompt s q raw now freqs rs = (ApiStatus.error, s, q) := by
  simp [api_process_prompt, h]

/-- Witness for C10 on a whitespace-only prompt. -/
theorem C10_witness :
    pyStrip "  " = "" ∧
    api_process_prompt ⟨[], [], []⟩ [] "  " 0 (fun _ => 300) (fun _ => (false, 0)) =
      (ApiStatus.error, ⟨[], [], []⟩, []) :=
  ⟨by decide,
   C10_empty_prompt_rejected ⟨[], [], []⟩ [] "  " 0 (fun _ => 300)
     (fun _ => (false, 0)) (by decide)⟩

/-! ### C4 — bulk reads and access counts -/

/-- Evaluation of the round-trip state: ingesting `cat` into the empty
store at time 100 yields exactly the default-initialized word node. -/
theorem ingestedCatState_eq :
    ingestedCatState = ⟨[], [mkWordEntity "cat" 100 300], []⟩ := by
  have henum : (tokenize "cat").enum = [(0, "cat")] := by decide
  simp only [ingestedCatState, process_prompt, henum, ingest_words,
    List.foldl_cons, List.foldl_nil]
  rw [ingestWord, if_neg (by decide : ¬ "cat" ∈ stop_words)]
  simp only [List.find?_nil, Option.isSome_none, Bool.false_eq_true, if_false,
    List.nil_append]
  simp only [strainFirst, promptStrainStep, if_neg (Bool.false_ne_true)]
  simp only [GraphState.mk.injEq, List.cons.injEq, and_true, true_and]
  simp only [mkWordEntity, Entity.mk.injEq, true_and, and_true]
  norm_num

/-- C4: the claim — a bulk read increments the read node's
`access_count`, so a node created by ingestion and read back has
`access_count` = creation default + 1 = 2 — is false: `get_entities` is
a pure projection; after ingesting `cat` into the empty store a bulk
read returns the node still with `access_count = 1` and leaves the
store unchanged. -/
theorem C4_counterexample :
    (api_entities ingestedCatState none none).2 = ingestedCatState ∧
    (api_entities ingestedCatState none none).1.map (fun e => e.access_count) = [1] ∧
    ¬ ((api_entities ingestedCatState none none).1.map (fun e => e.access_count) = [2]) := by
  refine ⟨rfl, ?_, ?_⟩
  · rw [ingestedCatState_eq]; rfl
  · rw [ingestedCatState_eq]
    simp [api_entities, get_entities, mkWordEntity]

/-- C4 (amended): bulk reads are pure — the store (in particular every
`access_count` and `last_accessed`) is unchanged by `get_entities` — and
a node created via ingestion then read back before any tick still
carries the creation default `access_count = 1` with all attributes
present. -/
theorem C4_bulk_read_pure (s : GraphState) (t : Option ℚ) (c : Option String) :
    (api_entities s t c).2 = s ∧
    (api_entities ingestedCatState none none).1 = [mkWordEntity "cat" 100 300] := by
  refine ⟨rfl, ?_⟩
  rw [ingestedCatState_eq]
  rfl

/-! ### C8 — ingesting "the cat sat" -/

/-- The identity-relevant projection of an entity list: ids, names and
access counts. -/
def idNameAccess (es : List Entity) : List (String × String × ℤ) :=
  es.map (fun e => (e.id, e.name, e.access_count))

/-- The dissonance step only rewrites `strain_amplitude`. -/
theorem promptStrainStep_fields (r : Bool × ℚ) (e : Entity) :
    (promptStrainStep r e).id = e.id ∧ (promptStrainStep r e).name = e.name ∧
    (promptStrainStep r e).access_count = e.access_count := by
  unfold promptStrainStep
  split <;> exact ⟨rfl, rfl, rfl⟩

/-- The dissonance loop preserves ids, names and access counts. -/
theorem idNameAccess_strainFirst (rs : Nat → Bool × ℚ) :
    ∀ (i fuel : Nat) (es : List Entity),
      idNameAccess (strainFirst rs i fuel es) = idNameAccess es := by
  intro i fuel es
  induction es generalizing i fuel with
  | nil => cases fuel <;> rfl
  | cons e rest ih =>
      cases fuel with
      | zero => rfl
      | succ f =>
          have ih2 := ih (i + 1) f
          simp only [idNameAccess] at ih2
          simp only [strainFirst, idNameAccess, List.map_cons, ih2]
          rcases promptStrainStep_fields (rs i) e with ⟨h1, h2, h3⟩
          rw [h1, h2, h3]

/-- A name-miss makes the word-loop lookup fail. -/
theorem find?_name_eq_none (es : List Entity) (w : String)
    (h : ∀ e ∈ es, pyLower e.name ≠ w) :
    (es.find? (fun e => pyLower e.name == w)) = none := by
  rw [List.find?_eq_none]
  intro e he
  simpa using h e he

/-- C8: ingesting "the cat sat" into a store holding no node named
`cat` or `sat` appends exactly the two default-initialized word nodes
(`the` is a stop word), each with `access_count = 1`, and this survives
the rest of `process_prompt` (ids, names, access counts); ingesting a
word whose node already exists creates no node and bumps that node's
`access_count` by one. -/
theorem C8_ingest_the_cat_sat (ag : List Agent) (rl : List Relationship)
    (es0 : List Entity) (now : ℚ) (freqs : Nat → ℤ) (rs : Nat → Bool × ℚ)
    (h : ∀ e ∈ es0, pyLower e.name ≠ "cat" ∧ pyLower e.name ≠ "sat") :
    (ingest_words now freqs es0 (tokenize "the cat sat").enum).1 =
        es0 ++ [mkWordEntity "cat" now (freqs 1), mkWordEntity "sat" now (freqs 2)] ∧
    idNameAccess ((process_prompt ⟨ag, es0, rl⟩ "the cat sat" now freqs rs).1.entities) =
        idNameAccess es0 ++
          [((mkWordEntity "cat" now (freqs 1)).id, "cat", 1),
           ((mkWordEntity "sat" now (freqs 2)).id, "sat", 1)] ∧
    ∀ (e : Entity), pyLower e.name = "cat" →
        (ingest_words now freqs [e] (tokenize "cat").enum).1 =
          [{ e with access_count := e.access_count + 1, last_accessed := now }] ∧
        idNameAccess ((process_prompt ⟨ag, [e], rl⟩ "cat" now freqs rs).1.entities) =
          [(e.id, e.name, e.access_count + 1)] := by
  have henum : (tokenize "the cat sat").enum = [(0, "the"), (1, "cat"), (2, "sat")] := by
    decide
  have hthe : ingestWord now (freqs 0) (es0, ([] : List Entity)) "the" = (es0, []) := by
    simp only [ingestWord]
    rw [if_pos (by decide : ("the" : String) ∈ stop_words)]
  have hcat : ingestWord now (freqs 1) (es0, ([] : List Entity)) "cat" =
      (es0 ++ [mkWordEntity "cat" now (freqs 1)], [mkWordEntity "cat" now (freqs 1)]) := by
    simp only [ingestWord]
    rw [if_neg (by decide : ¬ ("cat" : String) ∈ stop_words)]
    rw [find?_name_eq_none es0 "cat" (fun e he => (h e he).1)]
    simp
  have hmem : ∀ e ∈ es0 ++ [mkWordEntity "cat" now (freqs 1)], pyLower e.name ≠ "sat" := by
    intro e he
    rcases List.mem_append.mp he with h1 | h1
    · exact (h e h1).2
    · rw [List.mem_singleton] at h1
      subst h1
      exact (by decide : pyLower "cat" ≠ "sat")
  have hsat : ingestWord now (freqs 2)
      (es0 ++ [mkWordEntity "cat" now (freqs 1)], [mkWordEntity "cat" now (freqs 1)]) "sat" =
      (es0 ++ [mkWordEntity "cat" now (freqs 1), mkWordEntity "sat" now (freqs 2)],
       [mkWordEntity "cat" now (freqs 1), mkWordEntity "sat" now (freqs 2)]) := by
    simp only [ingestWord]
    rw [if_neg (by decide : ¬ ("sat" : String) ∈ stop_words)]
    rw [find?_name_eq_none _ "sat" hmem]
    simp
  have hw : ingest_words now freqs es0 (tokenize "the cat sat").enum =
      (es0 ++ [mkWordEntity "cat" now (freqs 1), mkWordEntity "sat" now (freqs 2)],
       [mkWordEntity "cat" now (freqs 1), mkWordEntity "sat" now (freqs 2)]) := by
    rw [henum]
    simp only [ingest_words, List.foldl_cons, List.foldl_nil]
    rw [hthe, hcat, hsat]
  refine ⟨by rw [hw], ?_, ?_⟩
  · simp only [process_prompt]
    rw [hw]
    simp only [idNameAccess_strainFirst]
    simp [idNameAccess, mkWordEntity]
  · intro e he
    have henum1 : (tokenize "cat").enum = [(0, "cat")] := by decide
    have hfind : ([e].find? (fun x => pyLower x.name == "cat")) = some e := by
      simp [List.find?_cons, he]
    have hword : ingestWord now (freqs 0) ([e], ([] : List Entity)) "cat" =
        ([{ e with access_count := e.access_count + 1, last_accessed := now }],
         ([] : List Entity)) := by
      simp only [ingestWord]
      rw [if_neg (by decide : ¬ ("cat" : String) ∈ stop_words)]
      rw [hfind]
      simp [bumpFirst, he]
    have hw1 : ingest_words now freqs [e] (tokenize "cat").enum =
        ([{ e with access_count := e.access_count + 1, last_accessed := now }],
         ([] : List Entity)) := by
      rw [henum1]
      simp only [ingest_words, List.foldl_cons, List.foldl_nil]
      rw [hword]
    constructor
    · rw [hw1]
    · simp only [process_prompt]
      rw [hw1]
      simp only [idNameAccess_strainFirst]
      simp [idNameAccess]

/-- Witness for C8 on the empty store. -/
theorem C8_witness :
    (∀ e ∈ ([] : List Entity), pyLower e.name ≠ "cat" ∧ pyLower e.name ≠ "sat") ∧
    (ingest_words 100 (fun _ => 300) [] (tokenize "the cat sat").enum).1 =
      [mkWordEntity "cat" 100 300, mkWordEntity "sat" 100 300] :=
  ⟨by simp,
   (C8_ingest_the_cat_sat [] [] [] 100 (fun _ => 300) (fun _ => (false, 0))
      (by simp)).1⟩

/-! ### C7 — amplitude nonnegativity -/

/-- The tick's amplitude update keeps a nonnegative amplitude
nonnegative, provided the drawn dissonance is nonnegative. -/
theorem updateEntity_amplitude_nonneg (now : ℚ) (r : Bool × ℚ) (e : Entity)
    (hd : 0 ≤ r.2) (he : 0 ≤ e.strain_amplitude) :
    0 ≤ (updateEntity now r e).strain_amplitude := by
  simp only [updateEntity]
  split_ifs with h1 h2
  · exact add_nonneg he hd
  · exact le_max_left 0 _
  · exact he

/-- The prompt dissonance step keeps a nonnegative amplitude
nonnegative, provided the drawn dissonance is nonnegative. -/
theorem promptStrainStep_amplitude_nonneg (r : Bool × ℚ) (e : Entity)
    (hd : 0 ≤ r.2) (he : 0 ≤ e.strain_amplitude) :
    0 ≤ (promptStrainStep r e).strain_amplitude := by
  simp only [promptStrainStep]
  split_ifs with h1
  · exact add_nonneg he hd
  · exact le_max_left 0 _

/-- A full tick over the entity list preserves amplitude
nonnegativity. -/
theorem tickEntities_amplitude_nonneg (now : ℚ) (rs : Nat → Bool × ℚ)
    (hrs : ∀ i, 0 ≤ (rs i).2) :
    ∀ (i : Nat) (es : List Entity), (∀ e ∈ es, 0 ≤ e.strain_amplitude) →
      ∀ e ∈ tickEntities now rs i es, 0 ≤ e.strain_amplitude := by
  intro i es
  induction es generalizing i with
  | nil => intro _ e he; simp [tickEntities] at he
  | cons a as ih =>
      intro hall e he
      rw [tickEntities] at he
      rcases List.mem_cons.mp he with h1 | h1
      · subst h1
        exact updateEntity_amplitude_nonneg now (rs i) a (hrs i) (hall a (by simp))
      · exact ih (i + 1) (fun x hx => hall x (by simp [hx])) e h1

/-- The dissonance loop preserves amplitude nonnegativity. -/
theorem strainFirst_amplitude_nonneg (rs : Nat → Bool × ℚ)
    (hrs : ∀ i, 0 ≤ (rs i).2) :
    ∀ (i fuel : Nat) (es : List Entity), (∀ e ∈ es, 0 ≤ e.strain_amplitude) →
      ∀ e ∈ strainFirst rs i fuel es, 0 ≤ e.strain_amplitude := by
  intro i fuel es
  induction es generalizing i fuel with
  | nil =>
      intro _ e he
      cases fuel <;> simp [strainFirst] at he
  | cons a as ih =>
      intro hall e he
      cases fuel with
      | zero => exact hall e he
      | succ f =>
          rw [strainFirst] at he
          rcases List.mem_cons.mp he with h1 | h1
          · subst h1
            exact promptStrainStep_amplitude_nonneg (rs i) a (hrs i) (hall a (by simp))
          · exact ih (i + 1) f (fun x hx => hall x (by simp [hx])) e h1

/-- Bumping an existing node's access count does not change any
amplitude. -/
theorem bumpFirst_amplitude_nonneg (now : ℚ) (w : String) :
    ∀ (es : List Entity), (∀ e ∈ es, 0 ≤ e.strain_amplitude) →
      ∀ e ∈ bumpFirst now w es, 0 ≤ e.strain_amplitude := by
  intro es
  induction es with
  | nil => intro _ x hx; simp [bumpFirst] at hx
  | cons a as ih =>
      intro hall x hx
      rw [bumpFirst] at hx
      split_ifs at hx
      · rcases List.mem_cons.mp hx with h1 | h1
        · rw [h1]; exact hall a (by simp)
        · exact hall x (by simp [h1])
      · rcases List.mem_cons.mp hx with h1 | h1
        · rw [h1]; exact hall a (by simp)
        · exact ih (fun y hy => hall y (by simp [hy])) x h1

/-- One word-loop iteration preserves amplitude nonnegativity (new word
nodes start at amplitude 0). -/
theorem ingestWord_amplitude_nonneg (now : ℚ) (freq : ℤ)
    (acc : List Entity × List Entity) (w : String)
    (h : ∀ e ∈ acc.1, 0 ≤ e.strain_amplitude) :
    ∀ e ∈ (ingestWord now freq acc w).1, 0 ≤ e.strain_amplitude := by
  intro e he
  rw [ingestWord] at he
  split_ifs at he
  · exact h e he
  · exact bumpFirst_amplitude_nonneg now w acc.1 h e he
  · rcases List.mem_append.mp he with h1 | h1
    · exact h e h1
    · rw [List.mem_singleton] at h1
      subst h1
      simp [mkWordEntity]

/-- The whole word loop preserves amplitude nonnegativity. -/
theorem ingest_words_amplitude_nonneg (now : ℚ) (freqs : Nat → ℤ) :
    ∀ (ws : List (Nat × String)) (acc : List Entity × List Entity),
      (∀ e ∈ acc.1, 0 ≤ e.strain_amplitude) →
      ∀ e ∈ (ws.foldl (fun acc iw => ingestWord now (freqs iw.1) acc iw.2) acc).1,
        0 ≤ e.strain_amplitude := by
  intro ws
  induction ws with
  | nil => intro acc h e he; exact h e he
  | cons iw rest ih =>
      intro acc h e he
      rw [List.foldl_cons] at he
      exact ih _ (ingestWord_amplitude_nonneg now (freqs iw.1) acc iw.2 h) e he

/-- Every state-mutating operation of the core preserves amplitude
nonnegativity when its random draws are admissible. -/
theorem applyOp_allNonneg (s : GraphState) (op : Op) (hs : allNonneg s)
    (hop : validOp op) : allNonneg (applyOp s op) := by
  cases op with
  | tick now rs =>
      intro e he
      exact tickEntities_amplitude_nonneg now rs
        (fun i => le_trans (by norm_num) (hop i).1) 0 s.entities hs e he
  | prompt text now freqs rs =>
      intro e he
      simp only [applyOp, process_prompt] at he
      exact strainFirst_amplitude_nonneg rs
        (fun i => le_trans (by norm_num) (hop i).1) 0 5 _
        (ingest_words_amplitude_nonneg now freqs (tokenize text).enum
          (s.entities, []) hs) e he

/-- C7: starting from a state whose amplitudes are all nonnegative, any
sequence of engine ticks and ingestion calls with admissible random
draws keeps every node's amplitude nonnegative. -/
theorem C7_amplitude_nonneg (ops : List Op) (s : GraphState)
    (hs : allNonneg s) (hops : ∀ op ∈ ops, validOp op) :
    allNonneg (ops.foldl applyOp s) := by
  induction ops generalizing s with
  | nil => exact hs
  | cons op rest ih =>
      rw [List.foldl_cons]
      exact ih (applyOp s op) (applyOp_allNonneg s op hs (hops op (by simp)))
        (fun o ho => hops o (by simp [ho]))

/-- Witness for C7: one contradiction tick then one ingestion on a
one-node store. -/
theorem C7_witness :
    allNonneg (([Op.tick 1 (fun _ => (true, 3/20)),
        Op.prompt "cat sat" 2 (fun _ => 300) (fun _ => (false, 3/20))]).foldl
        applyOp ⟨[], [nodeZero], []⟩) :=
  C7_amplitude_nonneg
    [Op.tick 1 (fun _ => (true, 3/20)),
     Op.prompt "cat sat" 2 (fun _ => 300) (fun _ => (false, 3/20))]
    ⟨[], [nodeZero], []⟩
    (by
      intro e he
      rw [List.mem_singleton] at he
      subst he
      norm_num [nodeZero])
    (by
      intro op hop
      simp only [List.mem_cons, List.not_mem_nil, or_false] at hop
      rcases hop with rfl | rfl <;>
        · intro i
          constructor <;> norm_num)
